import Mathlib

/-!
Verification of the conversation-state and adaptive-metrics subsystem of the
Tokisaki-Kurumi chat/translation application.

The in-memory store (`MemStorage` in the server's storage module) is embedded
as a Lean structure over association lists; JavaScript `Map` insertion-order
semantics are modelled by association lists where setting an existing key
replaces it in place and setting a fresh key appends.  JavaScript numbers that
carry fractional data (scores, accuracies) are modelled as rationals; integer
counters as naturals; `Date` timestamps as naturals supplied explicitly to
each operation ("now").  Nullable columns are `Option`s.  The free-form
`metadata` JSON bag on messages is not modelled: no verified property
inspects it.
-/

namespace Kurumi

/-- Association-list lookup: first binding of the key, as JavaScript
`Map.prototype.get`. -/
def mapGet [DecidableEq κ] : List (κ × α) → κ → Option α
  | [], _ => none
  | (k', v') :: t, k => if k' = k then some v' else mapGet t k

/-- Association-list update, as JavaScript `Map.prototype.set`: replace the
binding in place when the key is present, append otherwise. -/
def mapSet [DecidableEq κ] : List (κ × α) → κ → α → List (κ × α)
  | [], k, v => [(k, v)]
  | (k', v') :: t, k, v => if k' = k then (k, v) :: t else (k', v') :: mapSet t k v

@[simp]
theorem mapGet_nil [DecidableEq κ] (k : κ) : mapGet ([] : List (κ × α)) k = none := rfl

theorem mapGet_mapSet_self [DecidableEq κ] (l : List (κ × α)) (k : κ) (v : α) :
    mapGet (mapSet l k v) k = some v := by
  induction l with
  | nil => simp [mapGet, mapSet]
  | cons hd t ih =>
    obtain ⟨k', v'⟩ := hd
    by_cases h : k' = k
    · simp [mapGet, mapSet, h]
    · simp [mapGet, mapSet, h, ih]

theorem mapGet_mapSet_ne [DecidableEq κ] (l : List (κ × α)) {k k' : κ} (v : α)
    (h : k ≠ k') : mapGet (mapSet l k v) k' = mapGet l k' := by
  induction l with
  | nil => simp [mapGet, mapSet, h]
  | cons hd t ih =>
    obtain ⟨k₀, v₀⟩ := hd
    by_cases h₀ : k₀ = k
    · subst h₀
      simp [mapGet, mapSet, h]
    · simp only [mapSet, if_neg h₀]
      by_cases h₁ : k₀ = k'
      · simp [mapGet, h₁]
      · simp [mapGet, h₁, ih]

/-- Setting a key that is absent appends the new binding at the end. -/
theorem mapSet_of_get_none [DecidableEq κ] (l : List (κ × α)) (k : κ) (v : α)
    (h : mapGet l k = none) : mapSet l k v = l ++ [(k, v)] := by
  induction l with
  | nil => simp [mapSet]
  | cons hd t ih =>
    obtain ⟨k', v'⟩ := hd
    by_cases hk : k' = k
    · simp [mapGet, hk] at h
    · simp only [mapGet, if_neg hk] at h
      simp [mapSet, hk, ih h]

theorem length_mapSet_of_get_none [DecidableEq κ] (l : List (κ × α)) (k : κ) (v : α)
    (h : mapGet l k = none) : (mapSet l k v).length = l.length + 1 := by
  rw [mapSet_of_get_none l k v h]
  simp

theorem mem_of_mem_mapSet [DecidableEq κ] {l : List (κ × α)} {k : κ} {v : α} {p : κ × α}
    (h : p ∈ mapSet l k v) : p ∈ l ∨ p = (k, v) := by
  induction l with
  | nil => simpa [mapSet] using h
  | cons hd t ih =>
    obtain ⟨k', v'⟩ := hd
    by_cases hk : k' = k
    · simp only [mapSet, if_pos hk] at h
      rcases List.mem_cons.mp h with h | h
      · right; exact h
      · left; exact List.mem_cons_of_mem _ h
    · simp only [mapSet, if_neg hk] at h
      rcases List.mem_cons.mp h with h | h
      · left; exact h ▸ List.mem_cons_self _ _
      · rcases ih h with h | h
        · left; exact List.mem_cons_of_mem _ h
        · right; exact h

theorem mem_values_of_mapGet [DecidableEq κ] {l : List (κ × α)} {k : κ} {v : α}
    (h : mapGet l k = some v) : v ∈ l.map Prod.snd := by
  induction l with
  | nil => simp [mapGet] at h
  | cons hd t ih =>
    obtain ⟨k', v'⟩ := hd
    by_cases hk : k' = k
    · simp [mapGet, hk] at h
      simp [h]
    · simp only [mapGet, if_neg hk] at h
      simp [ih h]

/-! ## Data model (shared/schema.ts)

Timestamps (`Date`) are naturals, floating-point columns (`real`) are
rationals, nullable columns are `Option`s. -/

/-- Row of the `conversations` table. -/
structure Conversation where
  id : Nat
  title : String
  createdAt : Nat
  updatedAt : Nat
  totalExchanges : Nat
  accuracyImprovement : ℚ
  status : String
deriving DecidableEq

/-- Row of the `messages` table.  The free-form `metadata` JSON column is not
modelled (no verified property inspects it). -/
structure Message where
  id : Nat
  conversationId : Nat
  content : String
  translatedContent : Option String
  isUser : Bool
  language : String
  contextScore : Option ℚ
  timestamp : Nat
  feedbackScore : Option Int
deriving DecidableEq

/-- The single process-wide `learning_metrics` record. -/
structure LearningMetrics where
  id : Nat
  date : Nat
  totalTranslations : Nat
  accuracyScore : ℚ
  contextAccuracy : ℚ
  learningRate : ℚ
  positiveFeedback : Nat
  negativeFeedback : Nat
  improvementSuggestions : Nat
deriving DecidableEq

/-- Row of the `feedback_entries` table. -/
structure FeedbackEntry where
  id : Nat
  messageId : Nat
  feedbackType : String
  category : Option String
  suggestion : Option String
  timestamp : Nat
  applied : Bool
deriving DecidableEq

/-- Row of the `learning_patterns` table. -/
structure LearningPattern where
  id : Nat
  pattern : String
  frequency : Nat
  accuracy : ℚ
  lastSeen : Nat
  category : String
deriving DecidableEq

/-- `InsertConversation` (insert schema: `conversations` minus id and
timestamps).  The client (`translator-api.ts`) always supplies every field. -/
structure InsertConversation where
  title : String
  totalExchanges : Nat
  accuracyImprovement : ℚ
  status : String
deriving DecidableEq

/-- `InsertMessage` (insert schema: `messages` minus id and timestamp, with
the metadata bag dropped as above). -/
structure InsertMessage where
  conversationId : Nat
  content : String
  translatedContent : Option String := none
  isUser : Bool
  language : String
  contextScore : Option ℚ := none
  feedbackScore : Option Int := none
deriving DecidableEq

/-- `InsertFeedback` (insert schema: `feedback_entries` minus id, timestamp
and `applied`). -/
structure InsertFeedback where
  messageId : Nat
  feedbackType : String
  category : Option String := none
  suggestion : Option String := none
deriving DecidableEq

/-- `InsertLearningMetrics`: the partial record passed to
`updateLearningMetrics`; `none` marks a field absent from the update object. -/
structure InsertLearningMetrics where
  totalTranslations : Option Nat := none
  accuracyScore : Option ℚ := none
  contextAccuracy : Option ℚ := none
  learningRate : Option ℚ := none
  positiveFeedback : Option Nat := none
  negativeFeedback : Option Nat := none
  improvementSuggestions : Option Nat := none
deriving DecidableEq

/-- `Partial<Conversation>` as passed to `updateConversation`.  The code only
ever passes `{ totalExchanges }`; `id` and `updatedAt` entries are omitted
because the implementation's spread overwrites `updatedAt` unconditionally
and is never called with an `id` entry. -/
structure ConversationPatch where
  title : Option String := none
  createdAt : Option Nat := none
  totalExchanges : Option Nat := none
  accuracyImprovement : Option ℚ := none
  status : Option String := none
deriving DecidableEq

/-- `Partial<Message>` as passed to `updateMessage`.  For nullable columns the
outer `Option` marks presence of the entry, the inner one the value, so that a
present-but-null entry is representable, as with the JavaScript spread. -/
structure MessagePatch where
  id : Option Nat := none
  conversationId : Option Nat := none
  content : Option String := none
  translatedContent : Option (Option String) := none
  isUser : Option Bool := none
  language : Option String := none
  contextScore : Option (Option ℚ) := none
  timestamp : Option Nat := none
  feedbackScore : Option (Option Int) := none
deriving DecidableEq

/-- `{ ...message, ...updates }`: every field present in the patch wins. -/
def mergeMessage (m : Message) (p : MessagePatch) : Message where
  id := p.id.getD m.id
  conversationId := p.conversationId.getD m.conversationId
  content := p.content.getD m.content
  translatedContent := p.translatedContent.getD m.translatedContent
  isUser := p.isUser.getD m.isUser
  language := p.language.getD m.language
  contextScore := p.contextScore.getD m.contextScore
  timestamp := p.timestamp.getD m.timestamp
  feedbackScore := p.feedbackScore.getD m.feedbackScore

/-! ## The in-memory store (`MemStorage`, server storage module) -/

/-- The private fields of the `MemStorage` class.  The `Map`s are association
lists (see `mapGet`/`mapSet`). -/
structure MemStorage where
  conversations : List (Nat × Conversation)
  messages : List (Nat × Message)
  learningMetrics : LearningMetrics
  feedbackEntries : List (Nat × FeedbackEntry)
  learningPatterns : List (String × LearningPattern)
  currentConversationId : Nat
  currentMessageId : Nat
  currentFeedbackId : Nat
  currentPatternId : Nat
deriving DecidableEq

/-- The baseline learning metrics installed by the `MemStorage` constructor. -/
def initialMetrics : LearningMetrics where
  id := 1
  date := 0
  totalTranslations := 1247
  accuracyScore := 94.2
  contextAccuracy := 87.8
  learningRate := 2.3
  positiveFeedback := 89
  negativeFeedback := 11
  improvementSuggestions := 12

/-- The state built by the `MemStorage` constructor. -/
def initialStorage : MemStorage where
  conversations := []
  messages := []
  learningMetrics := initialMetrics
  feedbackEntries := []
  learningPatterns := []
  currentConversationId := 1
  currentMessageId := 1
  currentFeedbackId := 1
  currentPatternId := 1

/-- `MemStorage.getConversation`. -/
def getConversation (s : MemStorage) (id : Nat) : Option Conversation :=
  mapGet s.conversations id

/-- `MemStorage.createConversation`: assigns the next conversation id and sets
both timestamps to `now`. -/
def createConversation (s : MemStorage) (ic : InsertConversation) (now : Nat) :
    MemStorage × Conversation :=
  let c : Conversation :=
    { id := s.currentConversationId
      title := ic.title
      createdAt := now
      updatedAt := now
      totalExchanges := ic.totalExchanges
      accuracyImprovement := ic.accuracyImprovement
      status := ic.status }
  ({ s with
      conversations := mapSet s.conversations c.id c
      currentConversationId := s.currentConversationId + 1 }, c)

/-- `MemStorage.updateConversation`: merge the patch over the stored record
and stamp `updatedAt := now`; `none` when the id is absent. -/
def updateConversation (s : MemStorage) (id : Nat) (p : ConversationPatch) (now : Nat) :
    MemStorage × Option Conversation :=
  match mapGet s.conversations id with
  | none => (s, none)
  | some c =>
    let c' : Conversation :=
      { id := c.id
        title := p.title.getD c.title
        createdAt := p.createdAt.getD c.createdAt
        updatedAt := now
        totalExchanges := p.totalExchanges.getD c.totalExchanges
        accuracyImprovement := p.accuracyImprovement.getD c.accuracyImprovement
        status := p.status.getD c.status }
    ({ s with conversations := mapSet s.conversations id c' }, some c')

/-- Stable ascending insertion by `timestamp` (JavaScript's stable
`Array.prototype.sort` with comparator `a.timestamp - b.timestamp`). -/
def insertByTs (m : Message) : List Message → List Message
  | [] => [m]
  | x :: xs => if x.timestamp < m.timestamp then x :: insertByTs m xs else m :: x :: xs

/-- Sort messages by ascending `timestamp`, stably. -/
def sortByTs (l : List Message) : List Message := l.foldr insertByTs []

/-- `MemStorage.getMessages`: all messages of the conversation, ordered by
ascending timestamp; empty when there are none. -/
def getMessages (s : MemStorage) (conversationId : Nat) : List Message :=
  sortByTs ((s.messages.map Prod.snd).filter (fun m => m.conversationId == conversationId))

/-- The message record `MemStorage.createMessage` builds: next id, the insert
fields, `timestamp := now`. -/
def newMessage (s : MemStorage) (im : InsertMessage) (now : Nat) : Message where
  id := s.currentMessageId
  conversationId := im.conversationId
  content := im.content
  translatedContent := im.translatedContent
  isUser := im.isUser
  language := im.language
  contextScore := im.contextScore
  timestamp := now
  feedbackScore := im.feedbackScore

/-- `MemStorage.createMessage`: assign the next message id, stamp `timestamp`,
store, and — when the owning conversation exists — bump its
`totalExchanges` through `updateConversation` (which also bumps `updatedAt`).
Both `new Date()` calls of one append are modelled by the same instant. -/
def createMessage (s : MemStorage) (im : InsertMessage) (now : Nat) :
    MemStorage × Message :=
  let m := newMessage s im now
  let s₁ : MemStorage :=
    { s with
        messages := mapSet s.messages m.id m
        currentMessageId := s.currentMessageId + 1 }
  match mapGet s₁.conversations m.conversationId with
  | some c =>
    ((updateConversation s₁ c.id { totalExchanges := some (c.totalExchanges + 1) } now).1, m)
  | none => (s₁, m)

/-- `MemStorage.updateMessage`: merge the patch into the stored message;
`none` (and no state change) when the id is absent. -/
def updateMessage (s : MemStorage) (id : Nat) (p : MessagePatch) :
    MemStorage × Option Message :=
  match mapGet s.messages id with
  | none => (s, none)
  | some m =>
    let m' := mergeMessage m p
    ({ s with messages := mapSet s.messages id m' }, some m')

/-- `MemStorage.updateLearningMetrics`: spread the partial record over the
stored one and stamp `date := now`. -/
def updateLearningMetrics (s : MemStorage) (p : InsertLearningMetrics) (now : Nat) :
    MemStorage :=
  { s with
      learningMetrics :=
        { id := s.learningMetrics.id
          date := now
          totalTranslations := p.totalTranslations.getD s.learningMetrics.totalTranslations
          accuracyScore := p.accuracyScore.getD s.learningMetrics.accuracyScore
          contextAccuracy := p.contextAccuracy.getD s.learningMetrics.contextAccuracy
          learningRate := p.learningRate.getD s.learningMetrics.learningRate
          positiveFeedback := p.positiveFeedback.getD s.learningMetrics.positiveFeedback
          negativeFeedback := p.negativeFeedback.getD s.learningMetrics.negativeFeedback
          improvementSuggestions :=
            p.improvementSuggestions.getD s.learningMetrics.improvementSuggestions } }

/-- `MemStorage.createFeedback`: store the entry (`applied := false`), then
bump exactly the metrics counter matching the feedback type. -/
def createFeedback (s : MemStorage) (fb : InsertFeedback) (now : Nat) :
    MemStorage × FeedbackEntry :=
  let entry : FeedbackEntry :=
    { id := s.currentFeedbackId
      messageId := fb.messageId
      feedbackType := fb.feedbackType
      category := fb.category
      suggestion := fb.suggestion
      timestamp := now
      applied := false }
  let s₁ : MemStorage :=
    { s with
        feedbackEntries := mapSet s.feedbackEntries entry.id entry
        currentFeedbackId := s.currentFeedbackId + 1 }
  let s₂ : MemStorage :=
    if fb.feedbackType = "positive" then
      updateLearningMetrics s₁
        { positiveFeedback := some (s.learningMetrics.positiveFeedback + 1) } now
    else if fb.feedbackType = "negative" then
      updateLearningMetrics s₁
        { negativeFeedback := some (s.learningMetrics.negativeFeedback + 1) } now
    else if fb.feedbackType = "suggestion" then
      updateLearningMetrics s₁
        { improvementSuggestions := some (s.learningMetrics.improvementSuggestions + 1) } now
    else s₁
  (s₂, entry)

/-- `MemStorage.updateLearningPattern`: keyed upsert on the concatenated
`"<pattern>-<category>"` key; on a hit, `frequency += 1` and
`accuracy := (existing.accuracy + accuracy) / 2`; on a miss, create with
`frequency := 1` and the observed accuracy. -/
def updateLearningPattern (s : MemStorage) (pat category : String) (accuracy : ℚ)
    (now : Nat) : MemStorage × LearningPattern :=
  let key := pat ++ "-" ++ category
  match mapGet s.learningPatterns key with
  | some existing =>
    let upd : LearningPattern :=
      { existing with
          frequency := existing.frequency + 1
          accuracy := (existing.accuracy + accuracy) / 2
          lastSeen := now }
    ({ s with learningPatterns := mapSet s.learningPatterns key upd }, upd)
  | none =>
    let np : LearningPattern :=
      { id := s.currentPatternId
        pattern := pat
        category := category
        frequency := 1
        accuracy := accuracy
        lastSeen := now }
    ({ s with
        learningPatterns := mapSet s.learningPatterns key np
        currentPatternId := s.currentPatternId + 1 }, np)

/-! ### Frame lemmas about the store operations -/

theorem updateConversation_messages (s : MemStorage) (id : Nat) (p : ConversationPatch)
    (now : Nat) : (updateConversation s id p now).1.messages = s.messages := by
  unfold updateConversation
  cases hg : mapGet s.conversations id <;> simp [hg]

theorem updateConversation_metrics (s : MemStorage) (id : Nat) (p : ConversationPatch)
    (now : Nat) : (updateConversation s id p now).1.learningMetrics = s.learningMetrics := by
  unfold updateConversation
  cases hg : mapGet s.conversations id <;> simp [hg]

theorem updateConversation_currentMessageId (s : MemStorage) (id : Nat)
    (p : ConversationPatch) (now : Nat) :
    (updateConversation s id p now).1.currentMessageId = s.currentMessageId := by
  unfold updateConversation
  cases hg : mapGet s.conversations id <;> simp [hg]

theorem createMessage_snd (s : MemStorage) (im : InsertMessage) (now : Nat) :
    (createMessage s im now).2 = newMessage s im now := by
  unfold createMessage
  cases hg : mapGet s.conversations im.conversationId <;> simp [hg, newMessage]

theorem createMessage_messages (s : MemStorage) (im : InsertMessage) (now : Nat) :
    (createMessage s im now).1.messages
      = mapSet s.messages s.currentMessageId (newMessage s im now) := by
  unfold createMessage
  cases hg : mapGet s.conversations im.conversationId <;>
    simp [hg, updateConversation_messages, newMessage]

theorem createMessage_metrics (s : MemStorage) (im : InsertMessage) (now : Nat) :
    (createMessage s im now).1.learningMetrics = s.learningMetrics := by
  unfold createMessage
  cases hg : mapGet s.conversations im.conversationId <;>
    simp [hg, newMessage, updateConversation_metrics]

theorem createMessage_currentMessageId (s : MemStorage) (im : InsertMessage) (now : Nat) :
    (createMessage s im now).1.currentMessageId = s.currentMessageId + 1 := by
  unfold createMessage
  cases hg : mapGet s.conversations im.conversationId <;>
    simp [hg, newMessage, updateConversation_currentMessageId]

theorem updateLearningPattern_messages (s : MemStorage) (pat category : String)
    (accuracy : ℚ) (now : Nat) :
    (updateLearningPattern s pat category accuracy now).1.messages = s.messages := by
  unfold updateLearningPattern
  cases hg : mapGet s.learningPatterns (pat ++ "-" ++ category) <;> simp [hg]

theorem updateLearningPattern_metrics (s : MemStorage) (pat category : String)
    (accuracy : ℚ) (now : Nat) :
    (updateLearningPattern s pat category accuracy now).1.learningMetrics
      = s.learningMetrics := by
  unfold updateLearningPattern
  cases hg : mapGet s.learningPatterns (pat ++ "-" ++ category) <;> simp [hg]

theorem updateLearningPattern_conversations (s : MemStorage) (pat category : String)
    (accuracy : ℚ) (now : Nat) :
    (updateLearningPattern s pat category accuracy now).1.conversations
      = s.conversations := by
  unfold updateLearningPattern
  cases hg : mapGet s.learningPatterns (pat ++ "-" ++ category) <;> simp [hg]

/-! ## Pattern classifier (`detectPatterns` / `detectCategory`)

Keyword substring containment over the lower-cased text, as in the route
module.  JavaScript's `toLowerCase` is modelled by mapping `Char.toLower`
over the characters (they agree on the ASCII keywords and the Korean text
involved, Hangul having no case). -/

/-- `text.toLowerCase()`. -/
def toLowerStr (s : String) : String := ⟨s.data.map Char.toLower⟩

/-- Substring containment on character lists (any position). -/
def charsInc (l sub : List Char) : Bool :=
  match l with
  | [] => sub.isEmpty
  | c :: t => sub.isPrefixOf (c :: t) || charsInc t sub

/-- `s.includes(sub)`. -/
def strIncludes (s sub : String) : Bool := charsInc s.data sub.data

def businessKeywords : List String :=
  ["회의", "사업", "분기", "meeting", "business", "quarterly", "프로젝트", "계획"]

def technicalKeywords : List String :=
  ["시스템", "데이터", "API", "system", "data", "개발", "코딩", "프로그래밍"]

def casualKeywords : List String :=
  ["안녕", "감사", "hello", "thank you", "어떻게", "뭐해", "좋아"]

def formalKeywords : List String :=
  ["습니다", "입니다", "께서", "하시", "please", "would you"]

/-- Does any keyword of the set occur in the lower-cased text? -/
def kwAny (kws : List String) (text : String) : Bool :=
  kws.any (fun keyword => strIncludes (toLowerStr text) keyword)

/-- The question-marker test of `detectPatterns` (mixes the raw and the
lower-cased text exactly as the code does). -/
def questionTest (text : String) : Bool :=
  strIncludes text "?" || strIncludes text "？" ||
    strIncludes (toLowerStr text) "what" ||
    strIncludes (toLowerStr text) "어떻게" ||
    strIncludes (toLowerStr text) "무엇"

/-- `detectPatterns`: push one tag per matching keyword set, in the fixed
order business, technical, casual, question, formal; default to the single
`"일반"` (general) tag when nothing matched.  The tag strings are the
code's Korean literals: `"비즈니스"` business, `"기술"` technical,
`"일상"` casual, `"질문"` question, `"격식체"` formal. -/
def detectPatterns (text : String) : List String :=
  let patterns :=
    (if kwAny businessKeywords text then ["비즈니스"] else []) ++
    (if kwAny technicalKeywords text then ["기술"] else []) ++
    (if kwAny casualKeywords text then ["일상"] else []) ++
    (if questionTest text then ["질문"] else []) ++
    (if kwAny formalKeywords text then ["격식체"] else [])
  if patterns.isEmpty then ["일반"] else patterns

/-- `detectCategory`: collapse the tag set to the single stored category with
priority business > technical > casual > general. -/
def detectCategory (text : String) : String :=
  let patterns := detectPatterns text
  if "비즈니스" ∈ patterns then "business"
  else if "기술" ∈ patterns then "technical"
  else if "일상" ∈ patterns then "casual"
  else "general"

/-! ## External responder and the message-creation route

This is the route variant that discriminates on `isUser`
(`POST /api/messages` with `chatWithKurumi`): a user turn is stored with
confidence 1.0 and no generated text; a non-user turn invokes the external
text-generation service.  The service interaction is embedded as a
`GenOutcome` describing what came back over the wire. -/

/-- Outcome of one call to the external text-generation service.
`failure` covers both a thrown transport/API error and an empty completion
(the code turns the latter into a thrown error caught by the same handler);
`unparseable` is a non-empty completion `JSON.parse` rejects; `parsed`
carries the three fields of the parsed JSON object, each `none` when
missing. -/
inductive GenOutcome where
  | failure
  | unparseable
  | parsed (response : Option String) (confidence : Option ℚ)
      (contextAnalysis : Option String)
deriving DecidableEq

/-- Result shape of `chatWithKurumi`. -/
structure ChatResult where
  response : String
  confidence : ℚ
  contextAnalysis : String
deriving DecidableEq

/-- JavaScript `x || d` for a string field: the default replaces a missing or
empty string. -/
def jsOrStr (o : Option String) (d : String) : String :=
  match o with
  | some v => if v = "" then d else v
  | none => d

/-- JavaScript `x || d` for a numeric field: the default replaces a missing
or zero value. -/
def jsOrQ (o : Option ℚ) (d : ℚ) : ℚ :=
  match o with
  | some v => if v = 0 then d else v
  | none => d

/-- `chatWithKurumi`: the pure response-assembly of the helper, as a function
of the service outcome.  On transport failure the fixed in-character fallback
with confidence 0.5; on unparseable output the fixed apology with confidence
0.7; on parsed output the reported fields with the `||` defaults. -/
def chatWithKurumi : GenOutcome → ChatResult
  | .failure =>
    { response := "앗, 잠시 정신이 없었어요! 무엇을 도와드릴까요? 💕"
      confidence := 1/2
      contextAnalysis := "API 오류로 인한 기본 쿠루미 응답" }
  | .unparseable =>
    { response := "죄송해요, 제가 잠시 생각에 빠져있었어요. 다시 한번 말씀해주시겠어요? ✨"
      confidence := 7/10
      contextAnalysis := "파싱 오류로 인한 기본 쿠루미 응답" }
  | .parsed r c a =>
    { response := jsOrStr r "안녕하세요! 무엇을 도와드릴까요? 💕"
      confidence := jsOrQ c (9/10)
      contextAnalysis := jsOrStr a "쿠루미가 친근하게 응답" }

/-- The metrics update performed once per created message (route lines after
`storage.createMessage`): `totalTranslations += 1` and
`accuracyScore := min(100, accuracyScore + u)`, where `u` stands for the
drawn `Math.random() * 0.5`. -/
def recordTranslationEvent (s : MemStorage) (u : ℚ) (now : Nat) : MemStorage :=
  updateLearningMetrics s
    { totalTranslations := some (s.learningMetrics.totalTranslations + 1)
      accuracyScore := some (min 100 (s.learningMetrics.accuracyScore + u)) } now

/-- `POST /api/messages` (the `isUser`-discriminating variant): derive the
translated content and context score, store the message, record the
translation event, and upsert the learning pattern keyed by the first 20
characters of the content and its detected category.  Reaching the result at
all models the handler answering 201 rather than an error.  The
`if (currentMetrics)` guard always passes: `MemStorage` owns one metrics
record from construction. -/
def createMessageRoute (s : MemStorage) (req : InsertMessage) (gen : GenOutcome)
    (u : ℚ) (now : Nat) : MemStorage × Message :=
  let tcs : String × ℚ :=
    if req.isUser then ("", 1)
    else ((chatWithKurumi gen).response, (chatWithKurumi gen).confidence)
  let r₁ :=
    createMessage s
      { req with translatedContent := some tcs.1, contextScore := some tcs.2 } now
  let s₂ := recordTranslationEvent r₁.1 u now
  let s₃ := (updateLearningPattern s₂ (req.content.take 20) (detectCategory req.content)
    tcs.2 now).1
  (s₃, r₁.2)

/-- `POST /api/feedback`: store the feedback entry (which bumps the matching
metrics counter), then patch the target message's `feedbackScore` — 5 for
positive, 1 for negative, untouched otherwise. -/
def submitFeedback (s : MemStorage) (fb : InsertFeedback) (now : Nat) :
    MemStorage × FeedbackEntry :=
  let r₁ := createFeedback s fb now
  let s₂ :=
    if fb.feedbackType = "positive" then
      (updateMessage r₁.1 fb.messageId { feedbackScore := some (some 5) }).1
    else if fb.feedbackType = "negative" then
      (updateMessage r₁.1 fb.messageId { feedbackScore := some (some 1) }).1
    else r₁.1
  (s₂, r₁.2)

/-! ## Concrete fixtures used by witnesses and counterexamples -/

/-- A store holding one message (id 1, conversation 1, timestamp 5), obtained
by one `createMessage` on the fresh store. -/
def storeWithMsg : MemStorage :=
  (createMessage initialStorage
    { conversationId := 1, content := "안녕", isUser := true, language := "ko" } 5).1

/-- The message stored in `storeWithMsg`. -/
def msgW : Message :=
  { id := 1
    conversationId := 1
    content := "안녕"
    translatedContent := none
    isUser := true
    language := "ko"
    contextScore := none
    timestamp := 5
    feedbackScore := none }

/-! ## C3: the asymmetric average-of-averages pattern upsert -/

/-- Claim C3: starting from a table without the `(prefix, category)` key,
`upsertPattern` creates the record with `frequency = 1` and the observed
accuracy; a second call with the same key yields `frequency = 2` and
`accuracy = (a₁ + a₂) / 2`; a third yields `frequency = 3` and
`accuracy = ((a₁ + a₂) / 2 + a₃) / 2` — the average-of-averages recurrence. -/
theorem upsertPattern_avg_of_avgs (s : MemStorage) (pat category : String)
    (a₁ a₂ a₃ : ℚ) (t₁ t₂ t₃ : Nat)
    (h : mapGet s.learningPatterns (pat ++ "-" ++ category) = none) :
    (updateLearningPattern s pat category a₁ t₁).2.frequency = 1 ∧
    (updateLearningPattern s pat category a₁ t₁).2.accuracy = a₁ ∧
    mapGet (updateLearningPattern s pat category a₁ t₁).1.learningPatterns
      (pat ++ "-" ++ category) = some (updateLearningPattern s pat category a₁ t₁).2 ∧
    (updateLearningPattern (updateLearningPattern s pat category a₁ t₁).1
        pat category a₂ t₂).2.frequency = 2 ∧
    (updateLearningPattern (updateLearningPattern s pat category a₁ t₁).1
        pat category a₂ t₂).2.accuracy = (a₁ + a₂) / 2 ∧
    (updateLearningPattern (updateLearningPattern (updateLearningPattern s
        pat category a₁ t₁).1 pat category a₂ t₂).1 pat category a₃ t₃).2.frequency = 3 ∧
    (updateLearningPattern (updateLearningPattern (updateLearningPattern s
        pat category a₁ t₁).1 pat category a₂ t₂).1 pat category a₃ t₃).2.accuracy
      = ((a₁ + a₂) / 2 + a₃) / 2 := by
  simp [updateLearningPattern, h, mapGet_mapSet_self]

/-- Witness for C3 at `s = initialStorage`, accuracies 1, 0, 1: the third
accuracy is `((1 + 0) / 2 + 1) / 2`, which differs from the true running mean
`(1 + 0 + 1) / 3`. -/
theorem upsertPattern_avg_of_avgs_witness :
    ((updateLearningPattern (updateLearningPattern (updateLearningPattern initialStorage
        "p" "c" 1 0).1 "p" "c" 0 0).1 "p" "c" 1 0).2.accuracy
      = ((1 + 0) / 2 + 1) / 2 ∧
      (updateLearningPattern initialStorage "p" "c" 1 0).2.frequency = 1) ∧
    (((1 : ℚ) + 0) / 2 + 1) / 2 ≠ (1 + 0 + 1) / 3 := by
  refine ⟨?_, by norm_num⟩
  have h := upsertPattern_avg_of_avgs initialStorage "p" "c" 1 0 1 0 0 0 rfl
  exact ⟨h.2.2.2.2.2.2, h.1⟩

/-! ## C9: `patchMessage` -/

/-- Counterexample to claim C9 as stated: `patchMessage` does not protect
`conversationId` (nor `timestamp`) — the spread lets the patch overwrite
them.  Patching message 1 of `storeWithMsg` with `{ conversationId := 99 }`
rebinds the stored foreign reference from 1 to 99. -/
theorem patchMessage_changes_conversationId :
    (mapGet storeWithMsg.messages 1).map Message.conversationId = some 1 ∧
    ((updateMessage storeWithMsg 1 { conversationId := some 99 }).2).map
      Message.conversationId = some 99 ∧
    (mapGet (updateMessage storeWithMsg 1
      { conversationId := some 99 }).1.messages 1).map Message.conversationId = some 99 := by
  refine ⟨rfl, rfl, rfl⟩

/-- Claim C9, amended: `patchMessage(id, partial)` merges the given fields
into the stored message and re-stores it under the same id, returns the
not-found signal with no state change when the id is absent, and leaves
`timestamp` and `conversationId` unchanged whenever the patch itself does not
set them (the only patch the repository ever passes is `{ feedbackScore }`). -/
theorem patchMessage_spec (s : MemStorage) (id : Nat) (p : MessagePatch) :
    (mapGet s.messages id = none → updateMessage s id p = (s, none)) ∧
    (∀ m, mapGet s.messages id = some m →
      (updateMessage s id p).2 = some (mergeMessage m p) ∧
      mapGet (updateMessage s id p).1.messages id = some (mergeMessage m p) ∧
      (∀ v, p.feedbackScore = some v → (mergeMessage m p).feedbackScore = v) ∧
      (p.timestamp = none → (mergeMessage m p).timestamp = m.timestamp) ∧
      (p.conversationId = none → (mergeMessage m p).conversationId = m.conversationId)) := by
  constructor
  · intro h
    simp [updateMessage, h]
  · intro m h
    refine ⟨by simp [updateMessage, h], by simp [updateMessage, h, mapGet_mapSet_self],
      ?_, ?_, ?_⟩
    · intro v hv
      simp [mergeMessage, hv]
    · intro hv
      simp [mergeMessage, hv]
    · intro hv
      simp [mergeMessage, hv]

/-- Witness for C9 (amended): the not-found branch at absent id 2, and the
found branch at id 1 with the repository's actual `{ feedbackScore := 5 }`
patch. -/
theorem patchMessage_spec_witness :
    updateMessage storeWithMsg 2 { feedbackScore := some (some 5) } = (storeWithMsg, none) ∧
    (updateMessage storeWithMsg 1 { feedbackScore := some (some 5) }).2 =
      some (mergeMessage msgW { feedbackScore := some (some 5) }) ∧
    (mergeMessage msgW { feedbackScore := some (some 5) }).timestamp = msgW.timestamp := by
  refine ⟨(patchMessage_spec storeWithMsg 2 _).1 rfl, ?_, ?_⟩
  · exact ((patchMessage_spec storeWithMsg 1 _).2 msgW rfl).1
  · exact ((patchMessage_spec storeWithMsg 1 _).2 msgW rfl).2.2.2.1 rfl

/-! ## C4: feedback submission -/

/-- Claim C4: for an existing message id, `SubmitFeedback` with type
`positive` bumps `positiveFeedback` by exactly 1, leaves `negativeFeedback`
and `improvementSuggestions` unchanged, and sets the message's
`feedbackScore` to 5; for each type in {positive, negative, suggestion}
exactly the matching counter is incremented and the other two are
untouched. -/
theorem submitFeedback_counters (s : MemStorage) (fb : InsertFeedback) (now : Nat)
    (m : Message) (h : mapGet s.messages fb.messageId = some m) :
    (fb.feedbackType = "positive" →
      (submitFeedback s fb now).1.learningMetrics.positiveFeedback
          = s.learningMetrics.positiveFeedback + 1 ∧
      (submitFeedback s fb now).1.learningMetrics.negativeFeedback
          = s.learningMetrics.negativeFeedback ∧
      (submitFeedback s fb now).1.learningMetrics.improvementSuggestions
          = s.learningMetrics.improvementSuggestions ∧
      ∃ m', mapGet (submitFeedback s fb now).1.messages fb.messageId = some m' ∧
        m'.feedbackScore = some 5) ∧
    (fb.feedbackType = "negative" →
      (submitFeedback s fb now).1.learningMetrics.negativeFeedback
          = s.learningMetrics.negativeFeedback + 1 ∧
      (submitFeedback s fb now).1.learningMetrics.positiveFeedback
          = s.learningMetrics.positiveFeedback ∧
      (submitFeedback s fb now).1.learningMetrics.improvementSuggestions
          = s.learningMetrics.improvementSuggestions) ∧
    (fb.feedbackType = "suggestion" →
      (submitFeedback s fb now).1.learningMetrics.improvementSuggestions
          = s.learningMetrics.improvementSuggestions + 1 ∧
      (submitFeedback s fb now).1.learningMetrics.positiveFeedback
          = s.learningMetrics.positiveFeedback ∧
      (submitFeedback s fb now).1.learningMetrics.negativeFeedback
          = s.learningMetrics.negativeFeedback) := by
  refine ⟨?_, ?_, ?_⟩
  · intro ht
    refine ⟨?_, ?_, ?_, mergeMessage m { feedbackScore := some (some 5) }, ?_, rfl⟩
    · simp [submitFeedback, createFeedback, updateLearningMetrics, updateMessage, ht, h]
    · simp [submitFeedback, createFeedback, updateLearningMetrics, updateMessage, ht, h]
    · simp [submitFeedback, createFeedback, updateLearningMetrics, updateMessage, ht, h]
    · simp [submitFeedback, createFeedback, updateLearningMetrics, updateMessage, ht, h,
        mapGet_mapSet_self]
  · intro ht
    refine ⟨?_, ?_, ?_⟩ <;>
      simp [submitFeedback, createFeedback, updateLearningMetrics, updateMessage, ht, h]
  · intro ht
    refine ⟨?_, ?_, ?_⟩ <;>
      simp [submitFeedback, createFeedback, updateLearningMetrics, updateMessage, ht, h]

/-- The concrete positive-feedback request used by the C4 witness. -/
def fbW : InsertFeedback := { messageId := 1, feedbackType := "positive" }

/-- Witness for C4: positive feedback on message 1 of `storeWithMsg` bumps
`positiveFeedback` by one, keeps the other two counters, and scores the
message 5. -/
theorem submitFeedback_counters_witness :
    (submitFeedback storeWithMsg fbW 7).1.learningMetrics.positiveFeedback
      = storeWithMsg.learningMetrics.positiveFeedback + 1 ∧
    (submitFeedback storeWithMsg fbW 7).1.learningMetrics.negativeFeedback
      = storeWithMsg.learningMetrics.negativeFeedback ∧
    (submitFeedback storeWithMsg fbW 7).1.learningMetrics.improvementSuggestions
      = storeWithMsg.learningMetrics.improvementSuggestions ∧
    ∃ m', mapGet (submitFeedback storeWithMsg fbW 7).1.messages 1 = some m' ∧
      m'.feedbackScore = some 5 :=
  (submitFeedback_counters storeWithMsg fbW 7 msgW rfl).1 rfl

/-! ## C7: classification of the sample sentence and the priority order -/

/-- Claim C7: classifying "회의 일정 변경해야 할 것 같아요" yields a tag set
containing the business tag (the code's literal `"비즈니스"`), triggered by
the keyword "회의", and the persisted dominant category `"business"`; and for
every input text the dominant category follows the fixed priority order
business > technical > casual > general, with `"general"` exactly when none
of those three keyword sets matches. -/
theorem classify_business_and_priority :
    ("비즈니스" ∈ detectPatterns "회의 일정 변경해야 할 것 같아요" ∧
      strIncludes (toLowerStr "회의 일정 변경해야 할 것 같아요") "회의" = true ∧
      detectCategory "회의 일정 변경해야 할 것 같아요" = "business") ∧
    ∀ text : String,
      detectCategory text =
        if kwAny businessKeywords text then "business"
        else if kwAny technicalKeywords text then "technical"
        else if kwAny casualKeywords text then "casual"
        else "general" := by
  refine ⟨⟨by decide, by decide, by decide⟩, ?_⟩
  intro text
  unfold detectCategory detectPatterns
  by_cases hb : kwAny businessKeywords text <;>
  by_cases ht : kwAny technicalKeywords text <;>
  by_cases hc : kwAny casualKeywords text <;>
  by_cases hq : questionTest text <;>
  by_cases hf : kwAny formalKeywords text <;>
  simp [hb, ht, hc, hq, hf]

/-! ## Store invariants and counting helpers -/

/-- Every stored message key is below the id allocator — true of every state
the store can reach, since `createMessage` allocates `currentMessageId` and
then increments it. -/
def keysBelow (s : MemStorage) : Prop :=
  ∀ p ∈ s.messages, p.1 < s.currentMessageId

/-- Number of stored messages whose `conversationId` matches. -/
def msgCount (s : MemStorage) (cid : Nat) : Nat :=
  ((s.messages.map Prod.snd).filter (fun m => m.conversationId == cid)).length

theorem mapGet_eq_none_of_forall_lt [DecidableEq κ] {l : List (κ × α)} {P : κ → Prop}
    {k : κ} (hP : ∀ p ∈ l, P p.1) (hk : ¬ P k) : mapGet l k = none := by
  induction l with
  | nil => rfl
  | cons hd t ih =>
    obtain ⟨k', v'⟩ := hd
    have hk' : P k' := hP _ (List.mem_cons_self _ _)
    have : k' ≠ k := fun h => hk (h ▸ hk')
    simp only [mapGet, if_neg this]
    exact ih (fun p hp => hP p (List.mem_cons_of_mem _ hp))

theorem values_mapSet_of_get_none [DecidableEq κ] {l : List (κ × α)} {k : κ} {v : α}
    (h : mapGet l k = none) :
    (mapSet l k v).map Prod.snd = l.map Prod.snd ++ [v] := by
  rw [mapSet_of_get_none l k v h]
  simp

theorem mem_insertByTs (m a : Message) (l : List Message) :
    a ∈ insertByTs m l ↔ a = m ∨ a ∈ l := by
  induction l with
  | nil => simp [insertByTs]
  | cons x xs ih =>
    by_cases hx : x.timestamp < m.timestamp
    · simp only [insertByTs, if_pos hx, List.mem_cons, ih]
      tauto
    · simp only [insertByTs, if_neg hx, List.mem_cons]

theorem mem_sortByTs (a : Message) (l : List Message) : a ∈ sortByTs l ↔ a ∈ l := by
  induction l with
  | nil => simp [sortByTs]
  | cons x xs ih =>
    show a ∈ insertByTs x (sortByTs xs) ↔ _
    rw [mem_insertByTs]
    simp only [List.mem_cons]
    rw [ih]

/-! ## C1: the message-count invariant under `createMessage` -/

/-- First step of the C1 counterexample trace: a message is created for
conversation id 1 before any conversation exists (the store accepts it, see
C10). -/
def cexStore1 : MemStorage :=
  (createMessage initialStorage
    { conversationId := 1, content := "a", isUser := true, language := "ko" } 1).1

/-- Second step: the client then creates a conversation with the payload
`translator-api.ts` always sends (`totalExchanges: 0`); the allocator hands
out id 1, the id already referenced by the stored message. -/
def cexStore2 : MemStorage :=
  (createConversation cexStore1
    { title := "새로운 번역 세션", totalExchanges := 0, accuracyImprovement := 0,
      status := "active" } 2).1

/-- Third step: a `CreateMessage` appending to the now-existing
conversation 1. -/
def cexStore3 : MemStorage :=
  (createMessage cexStore2
    { conversationId := 1, content := "b", isUser := true, language := "ko" } 3).1

/-- Counterexample to claim C1 as stated: after the third step — a
`CreateMessage` appending to the existing conversation 1 — the conversation's
`totalExchanges` is 1 while two stored messages carry `conversationId = 1`.
The invariant is not re-established by the append because `createConversation`
trusts the client's `totalExchanges` and never reconciles it with messages
already bearing the fresh id. -/
theorem appendMessage_count_mismatch :
    (mapGet cexStore3.conversations 1).map Conversation.totalExchanges = some 1 ∧
    msgCount cexStore3 1 = 2 ∧
    (mapGet cexStore3.conversations 1).map Conversation.totalExchanges
      ≠ some (msgCount cexStore3 1) :=
  ⟨rfl, rfl, by decide⟩

/-- The conversation record after the exchange-count bump of one append. -/
def bumpConv (c : Conversation) (now : Nat) : Conversation where
  id := c.id
  title := c.title
  createdAt := c.createdAt
  updatedAt := now
  totalExchanges := c.totalExchanges + 1
  accuracyImprovement := c.accuracyImprovement
  status := c.status

/-- Claim C1, amended: the count equality is preserved, not unconditionally
established, by an append.  If the owning conversation exists under its own
id, the allocator invariant `keysBelow` holds, and `totalExchanges` equals
the stored-message count before the call, then after `createMessage` the
conversation's `totalExchanges` again equals the count (both grew by one) and
its `updatedAt` is set to the append instant. -/
theorem appendMessage_preserves_count (s : MemStorage) (im : InsertMessage) (now : Nat)
    (c : Conversation) (hk : keysBelow s)
    (hc : mapGet s.conversations im.conversationId = some c)
    (hid : c.id = im.conversationId)
    (hinv : c.totalExchanges = msgCount s im.conversationId) :
    ∃ c', mapGet (createMessage s im now).1.conversations im.conversationId = some c' ∧
      c'.totalExchanges = msgCount (createMessage s im now).1 im.conversationId ∧
      c'.totalExchanges = c.totalExchanges + 1 ∧
      c'.updatedAt = now := by
  have hnone : mapGet s.messages s.currentMessageId = none :=
    mapGet_eq_none_of_forall_lt (P := fun k => k < s.currentMessageId) hk (lt_irrefl _)
  have hcount : msgCount (createMessage s im now).1 im.conversationId
      = msgCount s im.conversationId + 1 := by
    rw [msgCount, createMessage_messages, values_mapSet_of_get_none hnone]
    simp [msgCount, newMessage]
  have hconv : (createMessage s im now).1.conversations
      = mapSet s.conversations im.conversationId (bumpConv c now) := by
    simp only [createMessage, newMessage]
    simp only [hc]
    simp only [updateConversation, hid, hc]
    simp [bumpConv, hid]
  refine ⟨bumpConv c now, ?_, ?_, rfl, rfl⟩
  · rw [hconv]
    exact mapGet_mapSet_self _ _ _
  · show c.totalExchanges + 1 = _
    rw [hcount, hinv]

/-- Witness fixture: a store whose conversation 1 was created before any of
its messages, with one message appended so far. -/
def wStore : MemStorage :=
  (createMessage
    (createConversation initialStorage
      { title := "t", totalExchanges := 0, accuracyImprovement := 0,
        status := "active" } 0).1
    { conversationId := 1, content := "a", isUser := true, language := "ko" } 1).1

/-- The conversation record held by `wStore` (one exchange so far). -/
def wConv : Conversation :=
  { id := 1, title := "t", createdAt := 0, updatedAt := 1, totalExchanges := 1,
    accuracyImprovement := 0, status := "active" }

/-- The second append of the C1 witness. -/
def wStep : MemStorage × Message :=
  createMessage wStore
    { conversationId := 1, content := "b", isUser := true, language := "ko" } 9

/-- Witness for C1 (amended) on a store whose conversation 1 was created
first and has one message: a second append takes both the counter and the
count to 2. -/
theorem appendMessage_preserves_count_witness :
    ∃ c', mapGet wStep.1.conversations 1 = some c' ∧
      c'.totalExchanges = msgCount wStep.1 1 ∧
      c'.totalExchanges = wConv.totalExchanges + 1 ∧
      c'.updatedAt = 9 :=
  appendMessage_preserves_count wStore
    { conversationId := 1, content := "b", isUser := true, language := "ko" } 9 wConv
    (by unfold keysBelow; decide) rfl rfl rfl

/-! ## C10: `createMessage` against an absent conversation -/

/-- Claim C10: `CreateMessage` with a `conversationId` matching no stored
conversation still succeeds — the message gets the next identity, is stored,
no conversation record changes, and `listMessages` for that id thereafter
returns it. -/
theorem createMessage_absent_conversation (s : MemStorage) (im : InsertMessage)
    (now : Nat) (h : mapGet s.conversations im.conversationId = none) :
    (createMessage s im now).2.id = s.currentMessageId ∧
    mapGet (createMessage s im now).1.messages (createMessage s im now).2.id
      = some (createMessage s im now).2 ∧
    (createMessage s im now).1.conversations = s.conversations ∧
    (createMessage s im now).2 ∈ getMessages (createMessage s im now).1
      im.conversationId := by
  have hconv : (createMessage s im now).1.conversations = s.conversations := by
    unfold createMessage
    simp [newMessage, h]
  have hstored : mapGet (createMessage s im now).1.messages (createMessage s im now).2.id
      = some (createMessage s im now).2 := by
    rw [createMessage_snd, createMessage_messages]
    show mapGet (mapSet s.messages s.currentMessageId (newMessage s im now))
      s.currentMessageId = _
    exact mapGet_mapSet_self _ _ _
  refine ⟨by rw [createMessage_snd]; rfl, hstored, hconv, ?_⟩
  rw [getMessages, mem_sortByTs, List.mem_filter]
  refine ⟨mem_values_of_mapGet hstored, ?_⟩
  rw [createMessage_snd]
  simp [newMessage]

/-- The C10 witness call: a message for the absent conversation 42 on the
fresh store. -/
def w10 : MemStorage × Message :=
  createMessage initialStorage
    { conversationId := 42, content := "hi", isUser := true, language := "en" } 3

/-- Witness for C10: the fresh store has no conversation 42, yet a message
for it is stored and listed. -/
theorem createMessage_absent_conversation_witness :
    w10.2.id = initialStorage.currentMessageId ∧
    mapGet w10.1.messages w10.2.id = some w10.2 ∧
    w10.1.conversations = initialStorage.conversations ∧
    w10.2 ∈ getMessages w10.1 42 :=
  createMessage_absent_conversation initialStorage
    { conversationId := 42, content := "hi", isUser := true, language := "en" } 3 rfl

/-! ## C2: monotone bounded accuracy across translation events -/

/-- Fold a sequence of translation events (increment, instant) over the
store. -/
def runEvents (s : MemStorage) (us : List (ℚ × Nat)) : MemStorage :=
  us.foldl (fun t p => recordTranslationEvent t p.1 p.2) s

/-- The `accuracyScore` values observed before, between and after a sequence
of translation events. -/
def scoreTrace (s : MemStorage) : List (ℚ × Nat) → List ℚ
  | [] => [s.learningMetrics.accuracyScore]
  | p :: ps => s.learningMetrics.accuracyScore :: scoreTrace (recordTranslationEvent s p.1 p.2) ps

theorem recordTranslationEvent_messages (s : MemStorage) (u : ℚ) (now : Nat) :
    (recordTranslationEvent s u now).messages = s.messages := rfl

theorem recordTranslationEvent_score (s : MemStorage) (u : ℚ) (now : Nat) :
    (recordTranslationEvent s u now).learningMetrics.accuracyScore
      = min 100 (s.learningMetrics.accuracyScore + u) := rfl

theorem recordTranslationEvent_total (s : MemStorage) (u : ℚ) (now : Nat) :
    (recordTranslationEvent s u now).learningMetrics.totalTranslations
      = s.learningMetrics.totalTranslations + 1 := rfl

theorem scoreTrace_head (s : MemStorage) (us : List (ℚ × Nat)) :
    (scoreTrace s us).head? = some s.learningMetrics.accuracyScore := by
  cases us <;> rfl

/-- Core induction for C2: from any state with score at most 100, any event
sequence with non-negative increments yields a non-decreasing score trace
bounded by 100, and adds the sequence length to `totalTranslations`. -/
theorem eventsSpec (us : List (ℚ × Nat)) :
    ∀ s : MemStorage, s.learningMetrics.accuracyScore ≤ 100 → (∀ p ∈ us, 0 ≤ p.1) →
      List.Chain' (· ≤ ·) (scoreTrace s us) ∧
      (∀ x ∈ scoreTrace s us, x ≤ 100) ∧
      (runEvents s us).learningMetrics.totalTranslations
        = s.learningMetrics.totalTranslations + us.length := by
  induction us with
  | nil =>
    intro s h100 _
    refine ⟨by simp [scoreTrace], ?_, rfl⟩
    intro x hx
    simp [scoreTrace] at hx
    simpa [hx] using h100
  | cons p ps ih =>
    intro s h100 hpos
    have hu : 0 ≤ p.1 := (hpos p (List.mem_cons_self _ _))
    have h100' : (recordTranslationEvent s p.1 p.2).learningMetrics.accuracyScore ≤ 100 := by
      rw [recordTranslationEvent_score]
      exact min_le_left _ _
    have hmono : s.learningMetrics.accuracyScore
        ≤ (recordTranslationEvent s p.1 p.2).learningMetrics.accuracyScore := by
      rw [recordTranslationEvent_score]
      exact le_min h100 (le_add_of_nonneg_right hu)
    obtain ⟨hch, hub, htot⟩ :=
      ih (recordTranslationEvent s p.1 p.2) h100'
        (fun q hq => hpos q (List.mem_cons_of_mem _ hq))
    refine ⟨?_, ?_, ?_⟩
    · show List.Chain' (· ≤ ·)
        (s.learningMetrics.accuracyScore :: scoreTrace (recordTranslationEvent s p.1 p.2) ps)
      rw [List.chain'_cons']
      refine ⟨?_, hch⟩
      intro y hy
      rw [scoreTrace_head] at hy
      simp at hy
      exact hy ▸ hmono
    · intro x hx
      rcases List.mem_cons.mp hx with hx | hx
      · rw [hx]; exact h100
      · exact hub x hx
    · show (runEvents (recordTranslationEvent s p.1 p.2) ps).learningMetrics.totalTranslations = _
      rw [htot, recordTranslationEvent_total]
      simp [List.length_cons]
      omega

/-- Claim C2: across any sequence of `recordTranslationEvent` calls with
increments drawn from [0, 0.5), the process-wide `accuracyScore` — starting
from the constructor's baseline 94.2 — is non-decreasing step by step and
never exceeds 100, and each call adds exactly 1 to `totalTranslations`
(1247 at construction). -/
theorem accuracy_monotone_bounded (us : List (ℚ × Nat))
    (h : ∀ p ∈ us, 0 ≤ p.1 ∧ p.1 < 1/2) :
    List.Chain' (· ≤ ·) (scoreTrace initialStorage us) ∧
    (∀ x ∈ scoreTrace initialStorage us, x ≤ 100) ∧
    (runEvents initialStorage us).learningMetrics.totalTranslations = 1247 + us.length :=
  eventsSpec us initialStorage
    (by norm_num [initialStorage, initialMetrics]) (fun p hp => (h p hp).1)

/-- Witness for C2 with the single increment 0 at instant 0. -/
theorem accuracy_monotone_bounded_witness :
    List.Chain' (· ≤ ·) (scoreTrace initialStorage [((0 : ℚ), 0)]) ∧
    (∀ x ∈ scoreTrace initialStorage [((0 : ℚ), 0)], x ≤ 100) ∧
    (runEvents initialStorage [((0 : ℚ), 0)]).learningMetrics.totalTranslations
      = 1247 + ([((0 : ℚ), 0)] : List (ℚ × Nat)).length :=
  accuracy_monotone_bounded [((0 : ℚ), 0)]
    (fun p hp => by
      simp at hp
      rw [hp]
      exact ⟨le_refl 0, one_half_pos⟩)

/-! ## Route-level facts about `createMessageRoute` -/

theorem createMessageRoute_stored (s : MemStorage) (req : InsertMessage)
    (gen : GenOutcome) (u : ℚ) (now : Nat) :
    mapGet (createMessageRoute s req gen u now).1.messages
      (createMessageRoute s req gen u now).2.id
      = some (createMessageRoute s req gen u now).2 := by
  simp [createMessageRoute, updateLearningPattern_messages, recordTranslationEvent_messages,
    createMessage_messages, createMessage_snd, newMessage, mapGet_mapSet_self]

theorem createMessageRoute_total (s : MemStorage) (req : InsertMessage)
    (gen : GenOutcome) (u : ℚ) (now : Nat) :
    (createMessageRoute s req gen u now).1.learningMetrics.totalTranslations
      = s.learningMetrics.totalTranslations + 1 := by
  simp [createMessageRoute, updateLearningPattern_metrics, recordTranslationEvent_total,
    createMessage_metrics]

theorem createMessageRoute_content (s : MemStorage) (req : InsertMessage)
    (gen : GenOutcome) (u : ℚ) (now : Nat) (h : req.isUser = false) :
    (createMessageRoute s req gen u now).2.translatedContent
      = some ((chatWithKurumi gen).response) := by
  simp [createMessageRoute, h, createMessage_snd, newMessage]

theorem createMessageRoute_score (s : MemStorage) (req : InsertMessage)
    (gen : GenOutcome) (u : ℚ) (now : Nat) (h : req.isUser = false) :
    (createMessageRoute s req gen u now).2.contextScore
      = some ((chatWithKurumi gen).confidence) := by
  simp [createMessageRoute, h, createMessage_snd, newMessage]

theorem createMessageRoute_score_user (s : MemStorage) (req : InsertMessage)
    (gen : GenOutcome) (u : ℚ) (now : Nat) (h : req.isUser = true) :
    (createMessageRoute s req gen u now).2.contextScore = some 1 := by
  simp [createMessageRoute, h, createMessage_snd, newMessage]

/-! ## C5: generation failure degrades, never fails, the request -/

/-- Claim C5: when the external service fails (`failure`) or returns
unparseable output (`unparseable`) during `CreateMessage(isUser=false)`, the
handler still completes: the stored message carries the fixed in-character
fallback body with the fixed lowered confidence (0.5 on failure, 0.7 on
parse failure) as its context score, the message is stored under its id, and
`totalTranslations` still advances by exactly 1. -/
theorem generation_failure_fallback (s : MemStorage) (req : InsertMessage)
    (u : ℚ) (now : Nat) (h : req.isUser = false) :
    ((createMessageRoute s req .failure u now).2.translatedContent
        = some "앗, 잠시 정신이 없었어요! 무엇을 도와드릴까요? 💕" ∧
      (createMessageRoute s req .failure u now).2.contextScore = some (1/2) ∧
      mapGet (createMessageRoute s req .failure u now).1.messages
        (createMessageRoute s req .failure u now).2.id
        = some (createMessageRoute s req .failure u now).2 ∧
      (createMessageRoute s req .failure u now).1.learningMetrics.totalTranslations
        = s.learningMetrics.totalTranslations + 1) ∧
    ((createMessageRoute s req .unparseable u now).2.translatedContent
        = some "죄송해요, 제가 잠시 생각에 빠져있었어요. 다시 한번 말씀해주시겠어요? ✨" ∧
      (createMessageRoute s req .unparseable u now).2.contextScore = some (7/10) ∧
      mapGet (createMessageRoute s req .unparseable u now).1.messages
        (createMessageRoute s req .unparseable u now).2.id
        = some (createMessageRoute s req .unparseable u now).2 ∧
      (createMessageRoute s req .unparseable u now).1.learningMetrics.totalTranslations
        = s.learningMetrics.totalTranslations + 1) := by
  refine ⟨⟨?_, ?_, createMessageRoute_stored _ _ _ _ _, createMessageRoute_total _ _ _ _ _⟩,
    ⟨?_, ?_, createMessageRoute_stored _ _ _ _ _, createMessageRoute_total _ _ _ _ _⟩⟩
  · rw [createMessageRoute_content _ _ _ _ _ h]
    rfl
  · rw [createMessageRoute_score _ _ _ _ _ h]
    rfl
  · rw [createMessageRoute_content _ _ _ _ _ h]
    rfl
  · rw [createMessageRoute_score _ _ _ _ _ h]
    rfl


/-- The non-user request of the C5/C8 witnesses. -/
def reqW : InsertMessage :=
  { conversationId := 1, content := "안녕하세요", isUser := false, language := "ko" }

/-- Witness for C5 at `reqW` on the fresh store (only the failure half is
restated here; the witness discharges the `isUser = false` hypothesis). -/
theorem generation_failure_fallback_witness :
    (createMessageRoute initialStorage reqW .failure 0 4).2.translatedContent
        = some "앗, 잠시 정신이 없었어요! 무엇을 도와드릴까요? 💕" ∧
    (createMessageRoute initialStorage reqW .failure 0 4).2.contextScore = some (1/2) ∧
    mapGet (createMessageRoute initialStorage reqW .failure 0 4).1.messages
      (createMessageRoute initialStorage reqW .failure 0 4).2.id
      = some (createMessageRoute initialStorage reqW .failure 0 4).2 ∧
    (createMessageRoute initialStorage reqW .failure 0 4).1.learningMetrics.totalTranslations
      = initialStorage.learningMetrics.totalTranslations + 1 :=
  (generation_failure_fallback initialStorage reqW 0 4 rfl).1

/-! ## C8: context scores -/

/-- The boundedness contract on what the external service reports: when the
outcome is parsed JSON carrying a confidence, that confidence lies in
[0, 1).  Transport failures and unparseable output are unconstrained. -/
def genConfOK : GenOutcome → Prop
  | .parsed _ c _ => ∀ x, c = some x → 0 ≤ x ∧ x < 1
  | _ => True

/-- Counterexample to claim C8 as stated: the route stores the
service-reported confidence unvalidated, so a parsed reply carrying
confidence 3/2 yields a stored context score of 3/2, outside [0,1] (and not
below the user score 1). -/
theorem contextScore_exceeds_bound :
    (createMessageRoute initialStorage reqW
      (.parsed (some "그래요") (some (3/2)) none) 0 4).2.contextScore = some (3/2) ∧
    ¬ ((3 / 2 : ℚ) ≤ 1) := by
  constructor
  · rw [createMessageRoute_score _ _ _ _ _ rfl]
    simp [chatWithKurumi, jsOrQ]
  · norm_num

/-- Claim C8, amended: user messages always get context score 1.0; generated
(`isUser = false`) messages get a score in [0, 1) — hence strictly below the
user score — provided the external service's reported confidence, when
present and parsed, lies in [0, 1) (the fixed fallbacks 0.5, 0.7 and the
missing-confidence default 0.9 all do).  Without that proviso the score is
stored unvalidated, see the counterexample. -/
theorem contextScore_spec (s : MemStorage) (req : InsertMessage) (gen : GenOutcome)
    (u : ℚ) (now : Nat) (hOK : genConfOK gen) :
    (req.isUser = true → (createMessageRoute s req gen u now).2.contextScore = some 1) ∧
    (req.isUser = false → ∃ q, (createMessageRoute s req gen u now).2.contextScore = some q ∧
      0 ≤ q ∧ q < 1) := by
  constructor
  · intro h
    exact createMessageRoute_score_user _ _ _ _ _ h
  · intro h
    refine ⟨(chatWithKurumi gen).confidence, createMessageRoute_score _ _ _ _ _ h, ?_⟩
    cases gen with
    | failure => constructor <;> norm_num [chatWithKurumi]
    | unparseable => constructor <;> norm_num [chatWithKurumi]
    | parsed r c a =>
      cases c with
      | none => constructor <;> norm_num [chatWithKurumi, jsOrQ]
      | some x =>
        by_cases hx : x = 0
        · constructor <;> norm_num [chatWithKurumi, jsOrQ, hx]
        · have hb := hOK x rfl
          constructor
          · simpa [chatWithKurumi, jsOrQ, hx] using hb.1
          · simpa [chatWithKurumi, jsOrQ, hx] using hb.2

/-- Witness for C8 (amended): a failed generation on the fresh store yields a
stored score in [0, 1). -/
theorem contextScore_spec_witness :
    ∃ q, (createMessageRoute initialStorage reqW .failure 0 4).2.contextScore = some q ∧
      0 ≤ q ∧ q < 1 :=
  (contextScore_spec initialStorage reqW .failure 0 4 trivial).2 rfl

/-! ## C6: concurrent `CreateMessage` calls

Each storage method runs synchronously from entry to return (none suspends
internally), so under the host's run-to-completion scheduling every storage
call is one atomic slice; handlers can interleave only between slices, at
their `await` boundaries (including the external-service call).  The model
below is even more permissive: it quantifies over every ordering of the
combined slices, a superset of the schedules any event loop can produce. -/

/-- One atomic slice of shared-store work performed by a
`POST /api/messages` handler. -/
inductive Action where
  | getMessagesAct (conversationId : Nat)
  | createMessageAct (im : InsertMessage) (now : Nat)
  | readMetricsAct
  | writeMetricsAct (p : InsertLearningMetrics) (now : Nat)
  | updatePatternAct (pat category : String) (accuracy : ℚ) (now : Nat)
deriving DecidableEq

/-- Effect of one slice on the store (pure reads change nothing). -/
def runAction (s : MemStorage) : Action → MemStorage
  | .getMessagesAct _ => s
  | .createMessageAct im now => (createMessage s im now).1
  | .readMetricsAct => s
  | .writeMetricsAct p now => updateLearningMetrics s p now
  | .updatePatternAct pat category accuracy now =>
    (updateLearningPattern s pat category accuracy now).1

/-- Run a whole schedule of slices. -/
def runActions (s : MemStorage) (l : List Action) : MemStorage := l.foldl runAction s

/-- Is the slice a `createMessage` targeting the given conversation? -/
def isCreateFor (cid : Nat) : Action → Bool
  | .createMessageAct im _ => im.conversationId == cid
  | _ => false

/-- Is the slice a `createMessage` at all? -/
def isCreateMsg : Action → Bool
  | .createMessageAct _ _ => true
  | _ => false

/-- What one handler contributes: the message it inserts, the (stale) metrics
patch it computed from its metrics read, its pattern-upsert arguments, and
the instants of its slices.  The patch is arbitrary here because the proved
properties do not depend on it. -/
structure HandlerParams where
  im : InsertMessage
  metricsPatch : InsertLearningMetrics
  pat : String
  category : String
  accuracy : ℚ
  tMsg : Nat
  tMet : Nat
  tPat : Nat
deriving DecidableEq

/-- The slices one `POST /api/messages` handler performs, in program order:
history read, message insert (with the conversation-counter bump inside the
same slice), metrics read, metrics write, pattern upsert. -/
def handlerActions (h : HandlerParams) : List Action :=
  [ .getMessagesAct h.im.conversationId,
    .createMessageAct h.im h.tMsg,
    .readMetricsAct,
    .writeMetricsAct h.metricsPatch h.tMet,
    .updatePatternAct h.pat h.category h.accuracy h.tPat ]

/-- Store well-formedness: every conversation is keyed by its own id. -/
def convKeysOk (s : MemStorage) : Prop :=
  ∀ k c, mapGet s.conversations k = some c → c.id = k

theorem convKeysOk_initial : convKeysOk initialStorage := by
  intro k c h
  simp [initialStorage, mapGet] at h

theorem convKeysOk_createConversation (s : MemStorage) (ic : InsertConversation)
    (now : Nat) (hw : convKeysOk s) : convKeysOk (createConversation s ic now).1 := by
  intro k c hkc
  simp only [createConversation] at hkc
  by_cases hk : s.currentConversationId = k
  · subst hk
    rw [mapGet_mapSet_self] at hkc
    cases hkc
    rfl
  · rw [mapGet_mapSet_ne _ _ hk] at hkc
    exact hw _ _ hkc

theorem updateLearningPattern_currentMessageId (s : MemStorage) (pat category : String)
    (accuracy : ℚ) (now : Nat) :
    (updateLearningPattern s pat category accuracy now).1.currentMessageId
      = s.currentMessageId := by
  unfold updateLearningPattern
  cases hg : mapGet s.learningPatterns (pat ++ "-" ++ category) <;> simp [hg]

/-- Case analysis of `createMessage` on a well-keyed store: either the
conversation is absent and the table is untouched, or present and rebound to
its bumped copy. -/
theorem createMessage_conversations_of_wf (s : MemStorage) (im : InsertMessage)
    (now : Nat) (hw : convKeysOk s) :
    (mapGet s.conversations im.conversationId = none ∧
      (createMessage s im now).1.conversations = s.conversations) ∨
    (∃ c, mapGet s.conversations im.conversationId = some c ∧
      (createMessage s im now).1.conversations
        = mapSet s.conversations im.conversationId (bumpConv c now)) := by
  cases hg : mapGet s.conversations im.conversationId with
  | none =>
    left
    refine ⟨rfl, ?_⟩
    unfold createMessage
    simp [newMessage, hg]
  | some c =>
    right
    refine ⟨c, rfl, ?_⟩
    have hcid : c.id = im.conversationId := hw _ _ hg
    simp only [createMessage, newMessage]
    simp only [hg]
    simp only [updateConversation, hcid, hg]
    simp [bumpConv, hcid]

theorem keysBelow_runAction (s : MemStorage) (a : Action) (hk : keysBelow s) :
    keysBelow (runAction s a) := by
  cases a with
  | getMessagesAct _ => exact hk
  | readMetricsAct => exact hk
  | writeMetricsAct p now => exact hk
  | updatePatternAct pat category accuracy now =>
    intro q hq
    simp only [runAction] at hq ⊢
    rw [updateLearningPattern_messages] at hq
    rw [updateLearningPattern_currentMessageId]
    exact hk q hq
  | createMessageAct im now =>
    intro q hq
    simp only [runAction] at hq ⊢
    rw [createMessage_messages] at hq
    rw [createMessage_currentMessageId]
    rcases mem_of_mem_mapSet hq with h | h
    · exact Nat.lt_succ_of_lt (hk q h)
    · rw [h]
      exact Nat.lt_succ_self _

theorem convKeysOk_runAction (s : MemStorage) (a : Action) (hw : convKeysOk s) :
    convKeysOk (runAction s a) := by
  cases a with
  | getMessagesAct _ => exact hw
  | readMetricsAct => exact hw
  | writeMetricsAct p now => exact hw
  | updatePatternAct pat category accuracy now =>
    intro k c hkc
    simp only [runAction] at hkc
    rw [updateLearningPattern_conversations] at hkc
    exact hw k c hkc
  | createMessageAct im now =>
    rcases createMessage_conversations_of_wf s im now hw with ⟨_, hco⟩ | ⟨c, hg, hco⟩
    · intro k c' hkc
      show _ = _
      rw [show (runAction s (.createMessageAct im now)).conversations
          = (createMessage s im now).1.conversations from rfl, hco] at hkc
      exact hw k c' hkc
    · intro k c' hkc
      rw [show (runAction s (.createMessageAct im now)).conversations
          = (createMessage s im now).1.conversations from rfl, hco] at hkc
      by_cases hk : im.conversationId = k
      · subst hk
        rw [mapGet_mapSet_self] at hkc
        cases hkc
        show c.id = im.conversationId
        exact hw _ _ hg
      · rw [mapGet_mapSet_ne _ _ hk] at hkc
        exact hw k c' hkc

theorem messagesLength_runAction (s : MemStorage) (a : Action) (hk : keysBelow s) :
    (runAction s a).messages.length
      = s.messages.length + (if isCreateMsg a then 1 else 0) := by
  cases a with
  | getMessagesAct _ => simp [runAction, isCreateMsg]
  | readMetricsAct => simp [runAction, isCreateMsg]
  | writeMetricsAct p now => simp [runAction, isCreateMsg, updateLearningMetrics]
  | updatePatternAct pat category accuracy now =>
    simp [runAction, isCreateMsg, updateLearningPattern_messages]
  | createMessageAct im now =>
    have hnone : mapGet s.messages s.currentMessageId = none :=
      mapGet_eq_none_of_forall_lt (P := fun k => k < s.currentMessageId) hk (lt_irrefl _)
    show (createMessage s im now).1.messages.length = _
    rw [createMessage_messages, length_mapSet_of_get_none _ _ _ hnone]
    simp [isCreateMsg]

theorem conv_count_runAction (s : MemStorage) (a : Action) {cid : Nat} {c : Conversation}
    (hw : convKeysOk s) (hc : mapGet s.conversations cid = some c) :
    ∃ c', mapGet (runAction s a).conversations cid = some c' ∧
      c'.totalExchanges = c.totalExchanges + (if isCreateFor cid a then 1 else 0) := by
  cases a with
  | getMessagesAct _ => exact ⟨c, hc, by simp [isCreateFor]⟩
  | readMetricsAct => exact ⟨c, hc, by simp [isCreateFor]⟩
  | writeMetricsAct p now => exact ⟨c, hc, by simp [isCreateFor]⟩
  | updatePatternAct pat category accuracy now =>
    refine ⟨c, ?_, by simp [isCreateFor]⟩
    show mapGet (updateLearningPattern s pat category accuracy now).1.conversations cid
      = some c
    rw [updateLearningPattern_conversations]
    exact hc
  | createMessageAct im now =>
    rcases createMessage_conversations_of_wf s im now hw with ⟨hgn, hco⟩ | ⟨c2, hg, hco⟩
    · have hne : im.conversationId ≠ cid := by
        intro he
        rw [he, hc] at hgn
        cases hgn
      refine ⟨c, ?_, ?_⟩
      · show mapGet (createMessage s im now).1.conversations cid = some c
        rw [hco]
        exact hc
      · simp [isCreateFor, hne]
    · by_cases he : im.conversationId = cid
      · subst he
        have hcc : c2 = c := by
          rw [hg] at hc
          cases hc
          rfl
        subst hcc
        refine ⟨bumpConv c2 now, ?_, ?_⟩
        · show mapGet (createMessage s im now).1.conversations im.conversationId = _
          rw [hco]
          exact mapGet_mapSet_self _ _ _
        · simp [bumpConv, isCreateFor]
      · refine ⟨c, ?_, ?_⟩
        · show mapGet (createMessage s im now).1.conversations cid = some c
          rw [hco, mapGet_mapSet_ne _ _ he]
          exact hc
        · simp [isCreateFor, he]

/-- Fold of the per-slice facts over a whole schedule: the invariants are
maintained, the messages table grows by the number of `createMessage` slices
(each under a fresh key, hence a distinct identity), and each conversation's
`totalExchanges` grows by the number of `createMessage` slices targeting
it. -/
theorem runActions_spec (l : List Action) :
    ∀ s : MemStorage, keysBelow s → convKeysOk s →
      keysBelow (runActions s l) ∧ convKeysOk (runActions s l) ∧
      (runActions s l).messages.length = s.messages.length + l.countP isCreateMsg ∧
      ∀ cid c, mapGet s.conversations cid = some c →
        ∃ c', mapGet (runActions s l).conversations cid = some c' ∧
          c'.totalExchanges = c.totalExchanges + l.countP (isCreateFor cid) := by
  induction l with
  | nil =>
    intro s hk hw
    exact ⟨hk, hw, by simp [runActions], fun cid c hc => ⟨c, hc, by simp⟩⟩
  | cons a t ih =>
    intro s hk hw
    have hk' := keysBelow_runAction s a hk
    have hw' := convKeysOk_runAction s a hw
    obtain ⟨hk2, hw2, hlen, hconv⟩ := ih (runAction s a) hk' hw'
    refine ⟨hk2, hw2, ?_, ?_⟩
    · show (runActions (runAction s a) t).messages.length = _
      rw [hlen, messagesLength_runAction s a hk, List.countP_cons]
      by_cases hca : isCreateMsg a
      · simp [hca]
        omega
      · simp [hca]
    · intro cid c hc
      obtain ⟨c1, hc1, he1⟩ := conv_count_runAction s a hw hc
      obtain ⟨c2, hc2, he2⟩ := hconv cid c1 hc1
      refine ⟨c2, hc2, ?_⟩
      rw [he2, he1, List.countP_cons]
      by_cases hcf : isCreateFor cid a
      · simp [hcf]
        omega
      · simp [hcf]

/-- A list of lists, each counting one for `p`, flattens to a count equal to
its length. -/
theorem countP_flatten_ones {α : Type} (p : α → Bool) (ls : List (List α))
    (h : ∀ l ∈ ls, l.countP p = 1) : ls.flatten.countP p = ls.length := by
  induction ls with
  | nil => simp
  | cons a t ih =>
    rw [List.flatten_cons, List.countP_append, h a (List.mem_cons_self _ _),
      ih (fun l hl => h l (List.mem_cons_of_mem _ hl))]
    simp [Nat.add_comm]

theorem handler_count_for (cid : Nat) (h : HandlerParams)
    (hcid : h.im.conversationId = cid) :
    (handlerActions h).countP (isCreateFor cid) = 1 := by
  simp [handlerActions, List.countP_cons, isCreateFor, hcid]

theorem handler_count_create (h : HandlerParams) :
    (handlerActions h).countP isCreateMsg = 1 := by
  simp [handlerActions, List.countP_cons, isCreateMsg]

/-- Claim C6: for every N, every schedule of N concurrent `CreateMessage`
handlers against the same conversation — any ordering of their combined
atomic slices, which covers every interleaving an event loop can produce —
leaves the conversation's `totalExchanges` at N (the conversation-record
read-modify-write sits inside the single `createMessage` slice, so no update
is lost) and adds N entries to the messages table under N fresh keys, i.e.
produces N distinct message identities. -/
theorem concurrent_appends (cid : Nat) (hs : List HandlerParams)
    (hcid : ∀ h ∈ hs, h.im.conversationId = cid)
    (l : List Action) (hperm : l.Perm (hs.map handlerActions).flatten)
    (s : MemStorage) (c : Conversation)
    (hk : keysBelow s) (hw : convKeysOk s)
    (hc : mapGet s.conversations cid = some c) (h0 : c.totalExchanges = 0) :
    ∃ c', mapGet (runActions s l).conversations cid = some c' ∧
      c'.totalExchanges = hs.length ∧
      (runActions s l).messages.length = s.messages.length + hs.length := by
  obtain ⟨_, _, hlen, hconv⟩ := runActions_spec l s hk hw
  have hcnt1 : l.countP (isCreateFor cid) = hs.length := by
    rw [hperm.countP_eq]
    rw [countP_flatten_ones (isCreateFor cid) (hs.map handlerActions) ?_]
    · simp
    · intro l' hl'
      obtain ⟨h, hh, rfl⟩ := List.mem_map.mp hl'
      exact handler_count_for cid h (hcid h hh)
  have hcnt2 : l.countP isCreateMsg = hs.length := by
    rw [hperm.countP_eq]
    rw [countP_flatten_ones isCreateMsg (hs.map handlerActions) ?_]
    · simp
    · intro l' hl'
      obtain ⟨h, _, rfl⟩ := List.mem_map.mp hl'
      exact handler_count_create h
  obtain ⟨c', hgc, he⟩ := hconv cid c hc
  refine ⟨c', hgc, ?_, ?_⟩
  · rw [he, h0, hcnt1]
    simp
  · rw [hlen, hcnt2]

/-- First handler of the C6 witness. -/
def hp1 : HandlerParams :=
  { im := { conversationId := 1, content := "a", isUser := true, language := "ko" }
    metricsPatch := { totalTranslations := some 1248 }
    pat := "a", category := "general", accuracy := 1, tMsg := 1, tMet := 2, tPat := 3 }

/-- Second handler of the C6 witness. -/
def hp2 : HandlerParams :=
  { im := { conversationId := 1, content := "b", isUser := true, language := "ko" }
    metricsPatch := { totalTranslations := some 1248 }
    pat := "b", category := "general", accuracy := 1, tMsg := 4, tMet := 5, tPat := 6 }

/-- The store of the C6 witness: a fresh conversation 1 with no exchanges. -/
def wStore6 : MemStorage :=
  (createConversation initialStorage
    { title := "t", totalExchanges := 0, accuracyImprovement := 0,
      status := "active" } 0).1

/-- The conversation record held by `wStore6`. -/
def wConv6 : Conversation :=
  { id := 1, title := "t", createdAt := 0, updatedAt := 0, totalExchanges := 0,
    accuracyImprovement := 0, status := "active" }

/-- Witness for C6 with two handlers against conversation 1 of `wStore6`:
`totalExchanges` ends at 2 and the messages table gains two entries. -/
theorem concurrent_appends_witness :
    ∃ c', mapGet (runActions wStore6
        ((([hp1, hp2] : List HandlerParams).map handlerActions).flatten)).conversations 1
        = some c' ∧
      c'.totalExchanges = ([hp1, hp2] : List HandlerParams).length ∧
      (runActions wStore6
          ((([hp1, hp2] : List HandlerParams).map handlerActions).flatten)).messages.length
        = wStore6.messages.length + ([hp1, hp2] : List HandlerParams).length :=
  concurrent_appends 1 [hp1, hp2] (by decide) _ (List.Perm.refl _) wStore6 wConv6
    (by unfold keysBelow; decide)
    (convKeysOk_createConversation initialStorage
      { title := "t", totalExchanges := 0, accuracyImprovement := 0, status := "active" } 0
      convKeysOk_initial)
    rfl rfl

end Kurumi
